import Mathlib

/-!
Verification of the flux auction-agent core (crates/core) against its
natural-language specification.  The Rust source is shallowly embedded:
U256 / u64 quantities become Nat (the embedded operations are comparisons
and remainders, which cannot overflow), the U24 arithmetic of Mps is
carried out modulo 2 ^ 24, fallible operations return Except, and the
RPC-dependent parts (chain reads, transaction receipts, hooks, strategy)
are passed in explicitly as data or function parameters.
-/

namespace Flux

/-! Domain primitives (crates/core/src/types/primitives.rs). -/

/-- Mps::FULL: 10_000_000 milli-parts of supply = the whole supply. -/
def Mps.FULL : Nat := 10000000

/-- The size of the U24 representation used by Mps. -/
def U24_SIZE : Nat := 2 ^ 24

/-- Mps::remaining: FULL - value on U24, i.e. wrapping subtraction mod 2 ^ 24. -/
def Mps.remaining (v : Nat) : Nat :=
  (Mps.FULL + U24_SIZE - v % U24_SIZE) % U24_SIZE

/-- Mps::is_sold_out: value >= FULL. -/
def Mps.is_sold_out (v : Nat) : Bool :=
  decide (Mps.FULL ≤ v)

/-- Price::is_aligned: price % tick_spacing == 0. -/
def Price.is_aligned (price tick_spacing : Nat) : Bool :=
  price % tick_spacing == 0

/-- CurrencyAddr::is_native: the currency address is the zero address. -/
def CurrencyAddr.is_native (addr : Nat) : Bool :=
  addr == 0

/-! Auction configuration (crates/core/src/types/config.rs). -/

structure AuctionConfig where
  address : Nat
  start_block : Nat
  end_block : Nat
  claim_block : Nat
  total_supply : Nat
  tick_spacing : Nat
  floor_price : Nat
  max_bid_price : Nat
  currency : Nat
  token : Nat
  validation_hook : Nat
deriving DecidableEq

/-- AuctionConfig::is_valid_price: price > floor, price <= max_bid_price,
price aligned to the tick spacing. -/
def AuctionConfig.is_valid_price (c : AuctionConfig) (price : Nat) : Bool :=
  decide (c.floor_price < price) && decide (price ≤ c.max_bid_price) &&
    Price.is_aligned price c.tick_spacing

/-- AuctionConfig::is_native_currency. -/
def AuctionConfig.is_native_currency (c : AuctionConfig) : Bool :=
  CurrencyAddr.is_native c.currency

/-! State enums (crates/core/src/types/state.rs). -/

inductive GraduationStatus where
  | NotGraduated
  | Graduated
deriving DecidableEq

inductive TokenDepositStatus where
  | Unknown
  | NotReceived
  | Received
deriving DecidableEq

inductive AuctionPhase where
  | PreStart (blocks_until_start : Nat)
  | PreTokens
  | Active (blocks_remaining : Nat)
  | Ended (blocks_until_claim : Nat)
  | Claimable
deriving DecidableEq

/-- matches!(phase, AuctionPhase::Active { .. }). -/
def AuctionPhase.is_active : AuctionPhase → Bool
  | .Active _ => true
  | _ => false

/-! Checkpoint (crates/core/src/types/checkpoint.rs). -/

structure Checkpoint where
  block : Nat
  clearing_price : Nat
  cumulative_mps : Nat
  prev_block : Nat
  next_block : Nat
deriving DecidableEq

/-- Checkpoint::remaining_mps. -/
def Checkpoint.remaining_mps (cp : Checkpoint) : Nat :=
  Mps.remaining cp.cumulative_mps

/-- Checkpoint::is_sold_out. -/
def Checkpoint.is_sold_out (cp : Checkpoint) : Bool :=
  Mps.is_sold_out cp.cumulative_mps

/-! Auction state (crates/core/src/types/state.rs). -/

structure AuctionState where
  current_block : Nat
  phase : AuctionPhase
  checkpoint : Checkpoint
  graduation : GraduationStatus
  tokens_received : TokenDepositStatus
  currency_raised : Nat
deriving DecidableEq

/-- AuctionState::compute_phase. -/
def AuctionState.compute_phase (config : AuctionConfig) (current_block : Nat)
    (tokens_received : TokenDepositStatus) : AuctionPhase :=
  let current := current_block
  let start := config.start_block
  let ending := config.end_block
  let claim := config.claim_block
  let tokens_ready : Bool :=
    match tokens_received with
    | .Received => true
    | .Unknown => false
    | .NotReceived => false
  if current < start then
    .PreStart (start - current)
  else if tokens_ready = false then
    .PreTokens
  else if current < ending then
    .Active (ending - current)
  else if current < claim then
    .Ended (claim - current)
  else
    .Claimable

/-- AuctionState::new: the phase is derived, currency_raised starts at zero. -/
def AuctionState.new (block : Nat) (checkpoint : Checkpoint)
    (graduation : GraduationStatus) (tokens_received : TokenDepositStatus)
    (config : AuctionConfig) : AuctionState :=
  { current_block := block
    phase := AuctionState.compute_phase config block tokens_received
    checkpoint := checkpoint
    graduation := graduation
    tokens_received := tokens_received
    currency_raised := 0 }

/-! Bids (crates/core/src/types/bid.rs). -/

inductive BidStatus where
  | ITM
  | ATM
  | OTM
deriving DecidableEq

structure Bid where
  id : Nat
  owner : Nat
  max_price : Nat
  amount : Nat
  start_block : Nat
  start_cumulative_mps : Nat
  exited_block : Option Nat
  tokens_filled : Nat
deriving DecidableEq

/-- Bid::status relative to a clearing price. -/
def Bid.status (b : Bid) (clearing_price : Nat) : BidStatus :=
  if clearing_price < b.max_price then .ITM
  else if b.max_price = clearing_price then .ATM
  else .OTM

/-! Errors (crates/core/src/error.rs).  Transport-level payloads are opaque
and modelled as Nat tags. -/

inductive ValidationError where
  | AuctionNotActive
  | TokensNotReceived
  | AuctionNotStarted
  | AuctionIsOver
  | AuctionNotOver
  | AmountTooSmall
  | OwnerIsZeroAddress
  | InvalidPrice
  | BidBelowClearingPrice
  | AuctionSoldOut
  | BidAlreadyExited
  | CannotPartiallyExitBeforeGraduation
  | BidNotITM
  | BidIsITM
  | BidNotOutbid
  | ClaimBlockNotReached
  | NotGraduated
  | BidNotExited
  | NoTokensToClaim
  | OwnerMismatch
  | UseExitBidForRefund
deriving DecidableEq

inductive ConfigError where
  | Transport (e : Nat)
  | Contract (e : Nat)
  | Multicall (e : Nat)
deriving DecidableEq

inductive HookError where
  | Rejected (reason : Nat)
  | PreparationFailed (e : Nat)
  | ValidationFailed (e : Nat)
deriving DecidableEq

inductive StateError where
  | Transport (e : Nat)
  | Contract (e : Nat)
  | Multicall (e : Nat)
  | BidNotFound
  | FinalCheckpointNotCached
deriving DecidableEq

inductive TransactionError where
  | Contract (e : Nat)
  | Pending (e : Nat)
  | MissingReceipt
  | MissingBidSubmittedEvent
  | MissingBidExitedEvent
  | MissingTokensClaimedEvent
  | Reverted (tx_hash : Nat)
deriving DecidableEq

inductive BlockStreamError where
  | Transport (e : Nat)
deriving DecidableEq

inductive Error where
  | Config (e : ConfigError)
  | Validation (e : ValidationError)
  | Hook (e : HookError)
  | State (e : StateError)
  | Transaction (e : TransactionError)
  | BlockStream (e : BlockStreamError)
deriving DecidableEq

/-! Action types (crates/core/src/types/action.rs). -/

structure SubmitBidInput where
  max_price : Nat
  amount : Nat
  owner : Nat
deriving DecidableEq

structure SubmitBidParams where
  max_price : Nat
  amount : Nat
  owner : Nat
  prev_tick_price : Nat
  hook_data : List Nat
  value : Nat
deriving DecidableEq

structure SubmitBidResult where
  bid_id : Nat
  tx_hash : Nat
deriving DecidableEq

structure ExitResult where
  bid_id : Nat
  tokens_filled : Nat
  currency_refunded : Nat
  tx_hash : Nat
deriving DecidableEq

structure ClaimResult where
  bid_ids : List Nat
  total_tokens : Nat
  tx_hash : Nat
deriving DecidableEq

/-- TrackedBid (crates/core/src/types/bid.rs): a bid id with the hash of the
transaction that confirmed it. -/
structure TrackedBid where
  id : Nat
  tx_hash : Nat
deriving DecidableEq

/-! Pure validation (crates/core/src/validation.rs). -/

/-- validate_submit_bid: the nine rejection checks in source order. -/
def validate_submit_bid (input : SubmitBidInput) (state : AuctionState)
    (config : AuctionConfig) : Except ValidationError Unit :=
  let current_block := state.current_block
  let start_block := config.start_block
  let end_block := config.end_block
  if current_block < start_block then
    .error .AuctionNotStarted
  else if end_block ≤ current_block then
    .error .AuctionIsOver
  else if AuctionPhase.is_active state.phase = false then
    .error .AuctionNotActive
  else if state.tokens_received ≠ TokenDepositStatus.Received then
    .error .TokensNotReceived
  else if input.amount = 0 then
    .error .AmountTooSmall
  else if input.owner = 0 then
    .error .OwnerIsZeroAddress
  else if AuctionConfig.is_valid_price config input.max_price = false then
    .error .InvalidPrice
  else if Checkpoint.is_sold_out state.checkpoint then
    .error .AuctionSoldOut
  else if input.max_price ≤ state.checkpoint.clearing_price then
    .error .BidBelowClearingPrice
  else
    .ok ()

/-- validate_exit_partially_filled: BidAlreadyExited first, then a
four-way case split on (graduated, ended). -/
def validate_exit_partially_filled (bid : Bid) (state : AuctionState)
    (config : AuctionConfig) : Except ValidationError Unit :=
  if bid.exited_block.isSome then
    .error .BidAlreadyExited
  else
    let is_graduated := state.graduation = GraduationStatus.Graduated
    let is_ended := config.end_block ≤ state.current_block
    let status := bid.status state.checkpoint.clearing_price
    if is_graduated then
      if is_ended then
        if status = BidStatus.ITM then .error .BidIsITM else .ok ()
      else
        if status ≠ BidStatus.OTM then .error .BidNotOutbid else .ok ()
    else
      if is_ended then .error .UseExitBidForRefund
      else .error .CannotPartiallyExitBeforeGraduation

/-! Executor cache (crates/core/src/executor/cache.rs). -/

structure ExecutorCache where
  tokens_received : TokenDepositStatus
  graduated : GraduationStatus
  final_checkpoint : Option Checkpoint
deriving DecidableEq

/-- ExecutorCache::new. -/
def ExecutorCache.new : ExecutorCache :=
  { tokens_received := .Unknown
    graduated := .NotGraduated
    final_checkpoint := none }

/-- ExecutorCache::update: tokens and graduation only ever upgrade to
Received / Graduated, and final_checkpoint is filled only past the end
block while still empty. -/
def ExecutorCache.update (c : ExecutorCache) (tokens : Option TokenDepositStatus)
    (graduation : Option GraduationStatus) (checkpoint : Option Checkpoint)
    (past_end_block : Bool) : ExecutorCache :=
  let c1 :=
    match tokens with
    | some status =>
      if status = TokenDepositStatus.Received then { c with tokens_received := status } else c
    | none => c
  let c2 :=
    match graduation with
    | some status =>
      if status = GraduationStatus.Graduated then { c1 with graduated := status } else c1
    | none => c1
  if past_end_block && checkpoint.isSome && c2.final_checkpoint.isNone then
    { c2 with final_checkpoint := checkpoint }
  else
    c2

/-- ExecutorCache::needs_token_balance. -/
def ExecutorCache.needs_token_balance (c : ExecutorCache) : Bool :=
  !(c.tokens_received == .Received)

/-- ExecutorCache::needs_graduation. -/
def ExecutorCache.needs_graduation (c : ExecutorCache) : Bool :=
  !(c.graduated == .Graduated)

/-- ExecutorCache::needs_checkpoint. -/
def ExecutorCache.needs_checkpoint (c : ExecutorCache) (past_end_block : Bool) : Bool :=
  if past_end_block then c.final_checkpoint.isNone else true

/-- The arguments of one ExecutorCache::update call. -/
structure UpdateCall where
  tokens : Option TokenDepositStatus
  graduation : Option GraduationStatus
  checkpoint : Option Checkpoint
  past_end_block : Bool
deriving DecidableEq

/-- A sequence of ExecutorCache::update calls, applied in order. -/
def ExecutorCache.apply_calls (c : ExecutorCache) : List UpdateCall → ExecutorCache
  | [] => c
  | u :: rest =>
    ExecutorCache.apply_calls (c.update u.tokens u.graduation u.checkpoint u.past_end_block) rest

/-! Tick-hint computation (crates/core/src/client.rs,
AuctionClient::compute_prev_tick_price).  The on-chain reads are modelled
by a TickModel: nextActiveTickPrice and the next pointer of ticks(price).
The Rust loop is unbounded; it is embedded with fuel, none standing for a
walk that has not terminated within the fuel. -/

structure TickModel where
  nextActiveTickPrice : Nat
  ticks_next : Nat → Nat

/-- The loop of compute_prev_tick_price: read ticks(prev).next; stop on
next >= max_price or next == prev, otherwise advance. -/
def prev_tick_loop (m : TickModel) (max_price : Nat) : Nat → Nat → Option Nat
  | 0, _prev => none
  | fuel + 1, prev =>
    let next_price := m.ticks_next prev
    if max_price ≤ next_price then some prev
    else if next_price = prev then some prev
    else prev_tick_loop m max_price fuel next_price

/-- AuctionClient::compute_prev_tick_price: reject an invalid max_price,
start from floor_price, take nextActiveTickPrice when it is below
max_price and at least the floor, then walk the tick list. -/
def compute_prev_tick_price (config : AuctionConfig) (m : TickModel) (fuel : Nat)
    (max_price : Nat) : Except Error (Option Nat) :=
  if AuctionConfig.is_valid_price config max_price = false then
    .error (.Validation .InvalidPrice)
  else
    let prev0 := config.floor_price
    let prev1 :=
      if m.nextActiveTickPrice < max_price ∧ prev0 ≤ m.nextActiveTickPrice then
        m.nextActiveTickPrice
      else prev0
    .ok (prev_tick_loop m max_price fuel prev1)

/-! Transaction pipeline of the client write paths
(crates/core/src/client.rs).  A receipt log either decodes as one of the
auction events or not; send/get_receipt may fail before a receipt exists;
receipt.inner.as_receipt() may be absent. -/

inductive Log where
  | BidSubmitted (id : Nat)
  | BidExited (tokensFilled : Nat) (currencyRefunded : Nat)
  | TokensClaimed (bidId : Nat) (tokensFilled : Nat)
  | Other (raw : Nat)
deriving DecidableEq

structure ReceiptBody where
  status : Bool
  logs : List Log
deriving DecidableEq

structure Receipt where
  transaction_hash : Nat
  body : Option ReceiptBody
deriving DecidableEq

/-- What the chain did with one sent transaction: send failed, the receipt
wait failed, or a receipt was obtained. -/
inductive SendResult where
  | SendErr (e : TransactionError)
  | ReceiptErr (e : TransactionError)
  | Mined (receipt : Receipt)
deriving DecidableEq

/-- logs.iter().find_map(log_decode::BidSubmitted): the first log that
decodes as BidSubmitted. -/
def find_bid_submitted : List Log → Option Nat
  | [] => none
  | .BidSubmitted id :: _ => some id
  | _ :: rest => find_bid_submitted rest

/-- The first log that decodes as BidExited. -/
def find_bid_exited : List Log → Option (Nat × Nat)
  | [] => none
  | .BidExited tokensFilled currencyRefunded :: _ => some (tokensFilled, currencyRefunded)
  | _ :: rest => find_bid_exited rest

/-- AuctionClient::submit_bid: on success the BidSubmitted id is appended
to tracked_bids with the confirming transaction hash; every error path
leaves tracked_bids unchanged. -/
def submit_bid (chain : SendResult) (tracked_bids : List TrackedBid) :
    Except Error SubmitBidResult × List TrackedBid :=
  match chain with
  | .SendErr e => (.error (.Transaction e), tracked_bids)
  | .ReceiptErr e => (.error (.Transaction e), tracked_bids)
  | .Mined receipt =>
    match receipt.body with
    | none => (.error (.Transaction .MissingReceipt), tracked_bids)
    | some body =>
      if body.status = false then
        (.error (.Transaction (.Reverted receipt.transaction_hash)), tracked_bids)
      else
        match find_bid_submitted body.logs with
        | none => (.error (.Transaction .MissingBidSubmittedEvent), tracked_bids)
        | some id =>
          (.ok { bid_id := id, tx_hash := receipt.transaction_hash },
            tracked_bids ++ [{ id := id, tx_hash := receipt.transaction_hash }])

/-- AuctionClient::exit_bid: decodes a BidExited event; never touches
tracked_bids. -/
def exit_bid (chain : SendResult) (bid_id : Nat) (tracked_bids : List TrackedBid) :
    Except Error ExitResult × List TrackedBid :=
  match chain with
  | .SendErr e => (.error (.Transaction e), tracked_bids)
  | .ReceiptErr e => (.error (.Transaction e), tracked_bids)
  | .Mined receipt =>
    match receipt.body with
    | none => (.error (.Transaction .MissingReceipt), tracked_bids)
    | some body =>
      if body.status = false then
        (.error (.Transaction (.Reverted receipt.transaction_hash)), tracked_bids)
      else
        match find_bid_exited body.logs with
        | none => (.error (.Transaction .MissingBidExitedEvent), tracked_bids)
        | some data =>
          (.ok { bid_id := bid_id, tokens_filled := data.1, currency_refunded := data.2,
                  tx_hash := receipt.transaction_hash },
            tracked_bids)

/-- AuctionClient::exit_partially_filled: same receipt pipeline as
exit_bid (the hint arguments only shape the encoded call); never touches
tracked_bids. -/
def exit_partially_filled (chain : SendResult) (bid_id : Nat)
    (tracked_bids : List TrackedBid) : Except Error ExitResult × List TrackedBid :=
  match chain with
  | .SendErr e => (.error (.Transaction e), tracked_bids)
  | .ReceiptErr e => (.error (.Transaction e), tracked_bids)
  | .Mined receipt =>
    match receipt.body with
    | none => (.error (.Transaction .MissingReceipt), tracked_bids)
    | some body =>
      if body.status = false then
        (.error (.Transaction (.Reverted receipt.transaction_hash)), tracked_bids)
      else
        match find_bid_exited body.logs with
        | none => (.error (.Transaction .MissingBidExitedEvent), tracked_bids)
        | some data =>
          (.ok { bid_id := bid_id, tokens_filled := data.1, currency_refunded := data.2,
                  tx_hash := receipt.transaction_hash },
            tracked_bids)

/-! Bid preparation (crates/core/src/client.rs,
AuctionClient::validate_bid_params and AuctionClient::prepare_bid). -/

/-- AuctionClient::validate_bid_params: the same nine checks as
validate_submit_bid, surfaced as Error::Validation. -/
def validate_bid_params (input : SubmitBidInput) (state : AuctionState)
    (config : AuctionConfig) : Except Error Unit :=
  let current_block := state.current_block
  let start_block := config.start_block
  let end_block := config.end_block
  if current_block < start_block then
    .error (.Validation .AuctionNotStarted)
  else if end_block ≤ current_block then
    .error (.Validation .AuctionIsOver)
  else if AuctionPhase.is_active state.phase = false then
    .error (.Validation .AuctionNotActive)
  else if state.tokens_received ≠ TokenDepositStatus.Received then
    .error (.Validation .TokensNotReceived)
  else if input.amount = 0 then
    .error (.Validation .AmountTooSmall)
  else if input.owner = 0 then
    .error (.Validation .OwnerIsZeroAddress)
  else if AuctionConfig.is_valid_price config input.max_price = false then
    .error (.Validation .InvalidPrice)
  else if Checkpoint.is_sold_out state.checkpoint then
    .error (.Validation .AuctionSoldOut)
  else if input.max_price ≤ state.checkpoint.clearing_price then
    .error (.Validation .BidBelowClearingPrice)
  else
    .ok ()

/-- AuctionClient::prepare_bid.  The RPC-dependent collaborators are
parameters: fetch_state's outcome, compute_prev_tick_price's outcome as a
function of the max price, and the hook's prepare_hook_data and validate.
The body mirrors the source: fetch state, validate_bid_params, compute
the tick hint, build params with value = amount exactly when the currency
is native, obtain hook_data and assign it, then run the hook validation. -/
def prepare_bid (fetch_state : Except Error AuctionState)
    (tick_hint : Nat → Except Error Nat)
    (hook_prepare : SubmitBidParams → AuctionState → Except Error (List Nat))
    (hook_validate : SubmitBidParams → AuctionState → Except Error Unit)
    (config : AuctionConfig) (input : SubmitBidInput) :
    Except Error SubmitBidParams := do
  let state ← fetch_state
  let _ ← validate_bid_params input state config
  let prev_tick_price ← tick_hint input.max_price
  let amount := input.amount
  let params0 : SubmitBidParams :=
    { max_price := input.max_price
      amount := amount
      owner := input.owner
      prev_tick_price := prev_tick_price
      hook_data := []
      value := 0 }
  let params1 :=
    if AuctionConfig.is_native_currency config then { params0 with value := amount }
    else params0
  let hook_data ← hook_prepare params1 state
  let params2 := { params1 with hook_data := hook_data }
  let _ ← hook_validate params2 state
  .ok params2

/-! Intent executor (crates/core/src/executor).  Its Intent has no Skip
variant and its Claim carries bid_ids; IntentExecutor::execute wraps the
outcome of execute_inner, here abstracted as the inner parameter. -/

namespace Executor

inductive Intent where
  | SubmitBid (max_price : Nat) (amount : Nat)
  | Exit (bid_id : Nat)
  | Claim (bid_ids : List Nat)
deriving DecidableEq

inductive IntentResult where
  | BidSubmitted (r : SubmitBidResult)
  | BidExited (r : ExitResult)
  | TokensClaimed (r : ClaimResult)
deriving DecidableEq

inductive IntentOutcome where
  | Success (r : IntentResult)
  | Failed (intent : Intent) (error : Error)
deriving DecidableEq

/-- IntentExecutor::execute (crates/core/src/executor/core.rs): Ok from
execute_inner becomes Success, Err becomes Failed with the intent. -/
def execute (intent : Intent) (inner : Except Error IntentResult) : IntentOutcome :=
  match inner with
  | .ok result => .Success result
  | .error error => .Failed intent error

end Executor

/-! Orchestrator (crates/core/src/orchestrator).  The block stream is a
list of Result items; the strategy is a function of the evaluation
context; the three non-Skip intent executions (execute_submit_bid,
execute_exit, execute_claim), which are RPC transactions against the
chain, are abstracted as an oracle from intent, block and orchestrator
state to a Result of intent result and successor state.  The orchestrator
module declares an OrchestratorCache whose file is not in the tree; per
its uses in core.rs and §4.3 of the spec it has the shape of
ExecutorCache, which is reused here. -/

inductive Intent where
  | SubmitBid (max_price : Nat) (amount : Nat)
  | Exit (bid_id : Nat)
  | Claim (bid_ids : List Nat)
  | Skip
deriving DecidableEq

inductive IntentResult where
  | BidSubmitted (r : SubmitBidResult)
  | BidExited (r : ExitResult)
  | TokensClaimed (r : ClaimResult)
  | Skipped
deriving DecidableEq

inductive CompletionReason where
  | AllBidsProcessed
  | AuctionEndedWithPending
  | BlockStreamEnded
  | Error (msg : Nat)
deriving DecidableEq

structure OrchestratorResult where
  bids_submitted : Nat
  bids_exited : Nat
  tokens_claimed : Nat
  reason : CompletionReason
deriving DecidableEq

inductive BlockResult where
  | Continue
  | Finished (r : OrchestratorResult)
deriving DecidableEq

structure EvaluationContext where
  block : Nat
  phase : AuctionPhase
  cache : ExecutorCache
  tracked_bids : List Nat
  config : AuctionConfig
deriving DecidableEq

/-- The orchestrator's mutable state: its cache, the client's tracked
bids, and the three counters. -/
structure Orchestrator where
  cache : ExecutorCache
  tracked_bids : List TrackedBid
  bids_submitted : Nat
  bids_exited : Nat
  tokens_claimed : Nat
deriving DecidableEq

/-- Orchestrator::new: fresh cache, zero counters. -/
def Orchestrator.new (tracked_bids : List TrackedBid) : Orchestrator :=
  { cache := ExecutorCache.new
    tracked_bids := tracked_bids
    bids_submitted := 0
    bids_exited := 0
    tokens_claimed := 0 }

/-- Orchestrator::is_complete: Claimable with no tracked bids, or Ended
with no tracked bids and graduation never observed. -/
def Orchestrator.is_complete (o : Orchestrator) (phase : AuctionPhase) : Bool :=
  let no_tracked_bids := o.tracked_bids.isEmpty
  match phase with
  | .Claimable => no_tracked_bids
  | .Ended _ => no_tracked_bids && (o.cache.graduated == .NotGraduated)
  | _ => false

/-- Orchestrator::finalize. -/
def Orchestrator.finalize (o : Orchestrator) (reason : CompletionReason) :
    OrchestratorResult :=
  { bids_submitted := o.bids_submitted
    bids_exited := o.bids_exited
    tokens_claimed := o.tokens_claimed
    reason := reason }

/-- Orchestrator::record_result. -/
def Orchestrator.record_result (o : Orchestrator) : IntentResult → Orchestrator
  | .BidSubmitted _ => { o with bids_submitted := o.bids_submitted + 1 }
  | .BidExited _ => { o with bids_exited := o.bids_exited + 1 }
  | .TokensClaimed res => { o with tokens_claimed := o.tokens_claimed + res.total_tokens }
  | .Skipped => o

/-- The oracle standing for execute_submit_bid / execute_exit /
execute_claim: chain-dependent, may mutate the orchestrator. -/
abbrev ExecOracle := Intent → Nat → Orchestrator → Except Error (IntentResult × Orchestrator)

/-- Orchestrator::resolve_and_execute: Skip resolves locally, the other
intents go to the oracle. -/
def Orchestrator.resolve_and_execute (exec : ExecOracle) (o : Orchestrator)
    (intent : Intent) (block : Nat) : Except Error (IntentResult × Orchestrator) :=
  match intent with
  | .Skip => .ok (.Skipped, o)
  | i => exec i block o

/-- The for-loop over intents in Orchestrator::handle_block: each
execution is awaited with the question-mark operator, so the first Err
aborts the whole loop. -/
def Orchestrator.exec_intents (exec : ExecOracle) (block : Nat) :
    Orchestrator → List Intent → Except Error Orchestrator
  | o, [] => .ok o
  | o, intent :: rest =>
    match Orchestrator.resolve_and_execute exec o intent block with
    | .error e => .error e
    | .ok (result, o1) =>
      Orchestrator.exec_intents exec block (o1.record_result result) rest

/-- matches!(i, Intent::Skip). -/
def Intent.is_skip : Intent → Bool
  | .Skip => true
  | _ => false

/-- Orchestrator::handle_block. -/
def Orchestrator.handle_block (exec : ExecOracle)
    (strategy : EvaluationContext → List Intent) (config : AuctionConfig)
    (o : Orchestrator) (block : Nat) : Except Error (BlockResult × Orchestrator) :=
  let phase := AuctionState.compute_phase config block o.cache.tokens_received
  if o.is_complete phase then
    .ok (.Finished (o.finalize .AllBidsProcessed), o)
  else
    let ctx : EvaluationContext :=
      { block := block
        phase := phase
        cache := o.cache
        tracked_bids := o.tracked_bids.map TrackedBid.id
        config := config }
    let intents := strategy ctx
    if intents.isEmpty || intents.all Intent.is_skip then
      .ok (.Continue, o)
    else
      match Orchestrator.exec_intents exec block o intents with
      | .error e => .error e
      | .ok o1 => .ok (.Continue, o1)

/-- Orchestrator::run over a finite prefix of the block stream: stream
errors and handle_block errors propagate; a Finished block returns its
result; an exhausted stream finalizes with BlockStreamEnded. -/
def Orchestrator.run (exec : ExecOracle)
    (strategy : EvaluationContext → List Intent) (config : AuctionConfig) :
    Orchestrator → List (Except BlockStreamError Nat) → Except Error OrchestratorResult
  | o, [] => .ok (o.finalize .BlockStreamEnded)
  | o, item :: rest =>
    match item with
    | .error e => .error (.BlockStream e)
    | .ok block =>
      match Orchestrator.handle_block exec strategy config o block with
      | .error e => .error e
      | .ok (.Finished result, _) => .ok result
      | .ok (.Continue, o1) => Orchestrator.run exec strategy config o1 rest

/-! Theorems. -/

/-- C1: validate_submit_bid is total and deterministic, and each outcome is
returned exactly when its check fires with every earlier check passing, in
the order AuctionNotStarted, AuctionIsOver, AuctionNotActive,
TokensNotReceived, AmountTooSmall, OwnerIsZeroAddress, InvalidPrice
(price not strictly above the floor, above max_bid_price, or not
tick-aligned), AuctionSoldOut, BidBelowClearingPrice, and Ok otherwise. -/
theorem validate_submit_bid_precedence (input : SubmitBidInput)
    (state : AuctionState) (config : AuctionConfig) :
    (validate_submit_bid input state config = .error .AuctionNotStarted ↔
      state.current_block < config.start_block) ∧
    (validate_submit_bid input state config = .error .AuctionIsOver ↔
      ¬state.current_block < config.start_block ∧
      config.end_block ≤ state.current_block) ∧
    (validate_submit_bid input state config = .error .AuctionNotActive ↔
      ¬state.current_block < config.start_block ∧
      ¬config.end_block ≤ state.current_block ∧
      AuctionPhase.is_active state.phase = false) ∧
    (validate_submit_bid input state config = .error .TokensNotReceived ↔
      ¬state.current_block < config.start_block ∧
      ¬config.end_block ≤ state.current_block ∧
      AuctionPhase.is_active state.phase = true ∧
      state.tokens_received ≠ TokenDepositStatus.Received) ∧
    (validate_submit_bid input state config = .error .AmountTooSmall ↔
      ¬state.current_block < config.start_block ∧
      ¬config.end_block ≤ state.current_block ∧
      AuctionPhase.is_active state.phase = true ∧
      state.tokens_received = TokenDepositStatus.Received ∧
      input.amount = 0) ∧
    (validate_submit_bid input state config = .error .OwnerIsZeroAddress ↔
      ¬state.current_block < config.start_block ∧
      ¬config.end_block ≤ state.current_block ∧
      AuctionPhase.is_active state.phase = true ∧
      state.tokens_received = TokenDepositStatus.Received ∧
      input.amount ≠ 0 ∧ input.owner = 0) ∧
    (validate_submit_bid input state config = .error .InvalidPrice ↔
      ¬state.current_block < config.start_block ∧
      ¬config.end_block ≤ state.current_block ∧
      AuctionPhase.is_active state.phase = true ∧
      state.tokens_received = TokenDepositStatus.Received ∧
      input.amount ≠ 0 ∧ input.owner ≠ 0 ∧
      AuctionConfig.is_valid_price config input.max_price = false) ∧
    (validate_submit_bid input state config = .error .AuctionSoldOut ↔
      ¬state.current_block < config.start_block ∧
      ¬config.end_block ≤ state.current_block ∧
      AuctionPhase.is_active state.phase = true ∧
      state.tokens_received = TokenDepositStatus.Received ∧
      input.amount ≠ 0 ∧ input.owner ≠ 0 ∧
      AuctionConfig.is_valid_price config input.max_price = true ∧
      Checkpoint.is_sold_out state.checkpoint = true) ∧
    (validate_submit_bid input state config = .error .BidBelowClearingPrice ↔
      ¬state.current_block < config.start_block ∧
      ¬config.end_block ≤ state.current_block ∧
      AuctionPhase.is_active state.phase = true ∧
      state.tokens_received = TokenDepositStatus.Received ∧
      input.amount ≠ 0 ∧ input.owner ≠ 0 ∧
      AuctionConfig.is_valid_price config input.max_price = true ∧
      Checkpoint.is_sold_out state.checkpoint = false ∧
      input.max_price ≤ state.checkpoint.clearing_price) ∧
    (validate_submit_bid input state config = .ok () ↔
      ¬state.current_block < config.start_block ∧
      ¬config.end_block ≤ state.current_block ∧
      AuctionPhase.is_active state.phase = true ∧
      state.tokens_received = TokenDepositStatus.Received ∧
      input.amount ≠ 0 ∧ input.owner ≠ 0 ∧
      AuctionConfig.is_valid_price config input.max_price = true ∧
      Checkpoint.is_sold_out state.checkpoint = false ∧
      state.checkpoint.clearing_price < input.max_price) ∧
    (AuctionConfig.is_valid_price config input.max_price = true ↔
      config.floor_price < input.max_price ∧
      input.max_price ≤ config.max_bid_price ∧
      input.max_price % config.tick_spacing = 0) := by
  have hv : AuctionConfig.is_valid_price config input.max_price = true ↔
      config.floor_price < input.max_price ∧
      input.max_price ≤ config.max_bid_price ∧
      input.max_price % config.tick_spacing = 0 := by
    simp [AuctionConfig.is_valid_price, Price.is_aligned, Bool.and_eq_true,
      decide_eq_true_eq, and_assoc]
  simp only [validate_submit_bid]
  split_ifs with h1 h2 h3 h4 h5 h6 h7 h8 h9 <;> simp_all

/-- C5: validate_exit_partially_filled rejects an already-exited bid with
BidAlreadyExited, and otherwise decides by (graduated, ended): graduated
and not ended requires OTM else BidNotOutbid; graduated and ended rejects
exactly ITM with BidIsITM; not graduated and ended gives
UseExitBidForRefund; not graduated and not ended gives
CannotPartiallyExitBeforeGraduation; everything else is Ok. -/
theorem validate_exit_partially_filled_cases (bid : Bid) (state : AuctionState)
    (config : AuctionConfig) :
    (validate_exit_partially_filled bid state config = .error .BidAlreadyExited ↔
      bid.exited_block.isSome = true) ∧
    (validate_exit_partially_filled bid state config = .error .BidNotOutbid ↔
      bid.exited_block.isSome = false ∧
      state.graduation = GraduationStatus.Graduated ∧
      ¬config.end_block ≤ state.current_block ∧
      bid.status state.checkpoint.clearing_price ≠ BidStatus.OTM) ∧
    (validate_exit_partially_filled bid state config = .error .BidIsITM ↔
      bid.exited_block.isSome = false ∧
      state.graduation = GraduationStatus.Graduated ∧
      config.end_block ≤ state.current_block ∧
      bid.status state.checkpoint.clearing_price = BidStatus.ITM) ∧
    (validate_exit_partially_filled bid state config = .error .UseExitBidForRefund ↔
      bid.exited_block.isSome = false ∧
      state.graduation ≠ GraduationStatus.Graduated ∧
      config.end_block ≤ state.current_block) ∧
    (validate_exit_partially_filled bid state config =
        .error .CannotPartiallyExitBeforeGraduation ↔
      bid.exited_block.isSome = false ∧
      state.graduation ≠ GraduationStatus.Graduated ∧
      ¬config.end_block ≤ state.current_block) ∧
    (validate_exit_partially_filled bid state config = .ok () ↔
      bid.exited_block.isSome = false ∧
      state.graduation = GraduationStatus.Graduated ∧
      ((config.end_block ≤ state.current_block ∧
          bid.status state.checkpoint.clearing_price ≠ BidStatus.ITM) ∨
        (¬config.end_block ≤ state.current_block ∧
          bid.status state.checkpoint.clearing_price = BidStatus.OTM))) := by
  simp only [validate_exit_partially_filled]
  split_ifs with h1 h2 h3 h4 h5 h6 <;> simp_all

/-- Field-level description of one ExecutorCache::update call. -/
theorem ExecutorCache.update_fields (c : ExecutorCache)
    (t : Option TokenDepositStatus) (g : Option GraduationStatus)
    (k : Option Checkpoint) (p : Bool) :
    ((c.update t g k p).tokens_received =
      if t = some TokenDepositStatus.Received then TokenDepositStatus.Received
      else c.tokens_received) ∧
    ((c.update t g k p).graduated =
      if g = some GraduationStatus.Graduated then GraduationStatus.Graduated
      else c.graduated) ∧
    ((c.update t g k p).final_checkpoint =
      if p = true ∧ k.isSome = true ∧ c.final_checkpoint = none then k
      else c.final_checkpoint) := by
  rcases t with _ | t <;> rcases g with _ | g <;>
    simp only [ExecutorCache.update] <;>
    split_ifs <;>
    simp_all [Option.isNone_iff_eq_none]

/-- C6: the executor cache is monotonic under every sequence of update
calls: Received and Graduated are never downgraded, an assigned
final_checkpoint is never changed, a single update touches
final_checkpoint only when past_end_block holds and it is currently
None, and the needs predicates hold exactly when the corresponding fact
is not yet proven, with needs_checkpoint always true before the end
block. -/
theorem executor_cache_monotone (c : ExecutorCache) (calls : List UpdateCall) :
    (c.tokens_received = TokenDepositStatus.Received →
      (c.apply_calls calls).tokens_received = TokenDepositStatus.Received) ∧
    (c.graduated = GraduationStatus.Graduated →
      (c.apply_calls calls).graduated = GraduationStatus.Graduated) ∧
    (∀ cp, c.final_checkpoint = some cp →
      (c.apply_calls calls).final_checkpoint = some cp) ∧
    (∀ t g k p, (c.update t g k p).final_checkpoint = c.final_checkpoint ∨
      ((c.update t g k p).final_checkpoint = k ∧ p = true ∧
        c.final_checkpoint = none ∧ k.isSome = true)) ∧
    (c.needs_token_balance = true ↔
      c.tokens_received ≠ TokenDepositStatus.Received) ∧
    (c.needs_graduation = true ↔ c.graduated ≠ GraduationStatus.Graduated) ∧
    (∀ p : Bool, c.needs_checkpoint p = true ↔
      (p = true → c.final_checkpoint = none)) ∧
    c.needs_checkpoint false = true := by
  refine ⟨?_, ?_, ?_, ?_, ?_, ?_, ?_, rfl⟩
  · intro h
    induction calls generalizing c with
    | nil => exact h
    | cons u rest ih =>
      refine ih _ ?_
      rcases ExecutorCache.update_fields c u.tokens u.graduation u.checkpoint
        u.past_end_block with ⟨ht, _, _⟩
      rw [ht]
      split_ifs <;> simp_all
  · intro h
    induction calls generalizing c with
    | nil => exact h
    | cons u rest ih =>
      refine ih _ ?_
      rcases ExecutorCache.update_fields c u.tokens u.graduation u.checkpoint
        u.past_end_block with ⟨_, hg, _⟩
      rw [hg]
      split_ifs <;> simp_all
  · intro cp h
    induction calls generalizing c with
    | nil => exact h
    | cons u rest ih =>
      refine ih _ ?_
      rcases ExecutorCache.update_fields c u.tokens u.graduation u.checkpoint
        u.past_end_block with ⟨_, _, hk⟩
      rw [hk]
      split_ifs <;> simp_all
  · intro t g k p
    rcases ExecutorCache.update_fields c t g k p with ⟨_, _, hk⟩
    rw [hk]
    split_ifs with h
    · exact Or.inr ⟨rfl, h.1, h.2.2, h.2.1⟩
    · exact Or.inl rfl
  · simp [ExecutorCache.needs_token_balance]
  · simp [ExecutorCache.needs_graduation]
  · intro p
    cases p <;> simp [ExecutorCache.needs_checkpoint, Option.isNone_iff_eq_none]

/-- A checkpoint already held by the cache in the C6 witness. -/
def cpHeld : Checkpoint :=
  { block := 7, clearing_price := 5, cumulative_mps := 9, prev_block := 1, next_block := 2 }

/-- A later checkpoint offered to the already-full cache in the C6 witness. -/
def cpLater : Checkpoint :=
  { block := 8, clearing_price := 6, cumulative_mps := 10, prev_block := 2, next_block := 3 }

/-- A cache with every fact already proven. -/
def cacheFull : ExecutorCache :=
  { tokens_received := TokenDepositStatus.Received
    graduated := GraduationStatus.Graduated
    final_checkpoint := some cpHeld }

/-- An update call that tries to downgrade every field. -/
def downgradeCall : UpdateCall :=
  { tokens := some TokenDepositStatus.NotReceived
    graduation := some GraduationStatus.NotGraduated
    checkpoint := some cpLater
    past_end_block := true }

/-- C6 witness: a fully proven cache survives a downgrade attempt
unchanged. -/
theorem executor_cache_monotone_witness :
    (ExecutorCache.apply_calls cacheFull [downgradeCall]).tokens_received =
      TokenDepositStatus.Received ∧
    (ExecutorCache.apply_calls cacheFull [downgradeCall]).final_checkpoint = some cpHeld := by
  rcases executor_cache_monotone cacheFull [downgradeCall] with ⟨h1, _, h3, _⟩
  exact ⟨h1 rfl, h3 _ rfl⟩

/-- C10: for any representable Mps value strictly above FULL, remaining
underflows in the wrapping 24-bit subtraction FULL - value: the result is
2 ^ 24 - (value - FULL), which is nonzero rather than zero, while
is_sold_out already treats the value as sold out; Checkpoint::remaining_mps
inherits the same underflow. -/
theorem mps_remaining_underflows (v : Nat) (h1 : Mps.FULL < v)
    (h2 : v < U24_SIZE) :
    Mps.remaining v = U24_SIZE - (v - Mps.FULL) ∧
    Mps.remaining v ≠ 0 ∧
    Mps.is_sold_out v = true ∧
    ∀ cp : Checkpoint, cp.cumulative_mps = v →
      Checkpoint.remaining_mps cp = U24_SIZE - (v - Mps.FULL) := by
  have hrem : Mps.remaining v = U24_SIZE - (v - Mps.FULL) := by
    simp only [Mps.remaining, Mps.FULL, U24_SIZE] at h1 h2 ⊢
    omega
  refine ⟨hrem, ?_, ?_, ?_⟩
  · rw [hrem]
    simp only [Mps.FULL, U24_SIZE] at h1 h2 ⊢
    omega
  · simp only [Mps.is_sold_out, decide_eq_true_eq]
    omega
  · intro cp hcp
    simp only [Checkpoint.remaining_mps, hcp, hrem]

/-- C10 witness: at cumulative_mps = 10_000_001 the remaining supply
underflows to 2 ^ 24 - 1 = 16_777_215 instead of zero. -/
theorem mps_remaining_underflows_witness :
    Mps.remaining 10000001 = U24_SIZE - (10000001 - Mps.FULL) ∧
    Mps.remaining 10000001 ≠ 0 ∧
    Mps.is_sold_out 10000001 = true ∧
    ∀ cp : Checkpoint, cp.cumulative_mps = 10000001 →
      Checkpoint.remaining_mps cp = U24_SIZE - (10000001 - Mps.FULL) :=
  mps_remaining_underflows 10000001 (by decide) (by decide)

/-- C9: at or after start_block, while the token deposit is Unknown or
NotReceived, compute_phase is PreTokens even past end_block or
claim_block, and the orchestrator completion predicate, which only fires
in the Ended or Claimable phases, is false on that phase for every
orchestrator state. -/
theorem compute_phase_pretokens (config : AuctionConfig) (block : Nat)
    (tokens : TokenDepositStatus) (hstart : config.start_block ≤ block)
    (htok : tokens ≠ TokenDepositStatus.Received) :
    AuctionState.compute_phase config block tokens = .PreTokens ∧
    ∀ o : Orchestrator,
      o.is_complete (AuctionState.compute_phase config block tokens) = false := by
  have hp : AuctionState.compute_phase config block tokens = .PreTokens := by
    cases tokens with
    | Received => exact absurd rfl htok
    | Unknown =>
      simp [AuctionState.compute_phase, Nat.not_lt.mpr hstart]
    | NotReceived =>
      simp [AuctionState.compute_phase, Nat.not_lt.mpr hstart]
  refine ⟨hp, fun o => ?_⟩
  rw [hp]
  rfl

/-- C9 witness: at block 500, far past end_block 200 and claim_block 300
of a config starting at 100, an Unknown token deposit still gives
PreTokens and completion cannot fire. -/
theorem compute_phase_pretokens_witness :
    AuctionState.compute_phase
      { address := 0, start_block := 100, end_block := 200, claim_block := 300
        total_supply := 1000, tick_spacing := 2, floor_price := 10
        max_bid_price := 50, currency := 0, token := 1, validation_hook := 0 }
      500 TokenDepositStatus.Unknown = .PreTokens ∧
    ∀ o : Orchestrator,
      o.is_complete (AuctionState.compute_phase
        { address := 0, start_block := 100, end_block := 200, claim_block := 300
          total_supply := 1000, tick_spacing := 2, floor_price := 10
          max_bid_price := 50, currency := 0, token := 1, validation_hook := 0 }
        500 TokenDepositStatus.Unknown) = false :=
  compute_phase_pretokens
    { address := 0, start_block := 100, end_block := 200, claim_block := 300
      total_supply := 1000, tick_spacing := 2, floor_price := 10
      max_bid_price := 50, currency := 0, token := 1, validation_hook := 0 }
    500 TokenDepositStatus.Unknown (by decide) (by decide)

/-- Invariant of the tick walk: starting below max_price from a
floor-bounded aligned price, over a model whose non-terminator next
pointers are floor-bounded, aligned and strictly increasing, enough fuel
produces a result that stays below max_price, floor-bounded and aligned,
and satisfies the loop exit condition. -/
theorem prev_tick_loop_spec (m : TickModel) (p floor spacing : Nat)
    (hwf : ∀ x, m.ticks_next x = x ∨
      (floor ≤ m.ticks_next x ∧ Price.is_aligned (m.ticks_next x) spacing = true ∧
        x < m.ticks_next x)) :
    ∀ fuel prev, prev < p → floor ≤ prev → Price.is_aligned prev spacing = true →
      p - prev ≤ fuel →
      ∃ q, prev_tick_loop m p fuel prev = some q ∧ q < p ∧ floor ≤ q ∧
        Price.is_aligned q spacing = true ∧
        (p ≤ m.ticks_next q ∨ m.ticks_next q = q) := by
  intro fuel
  induction fuel with
  | zero => intro prev h1 _ _ h4; omega
  | succ n ih =>
    intro prev h1 h2 h3 h4
    by_cases hge : p ≤ m.ticks_next prev
    · exact ⟨prev, by simp [prev_tick_loop, hge], h1, h2, h3, Or.inl hge⟩
    · by_cases heq : m.ticks_next prev = prev
      · exact ⟨prev, by simp [prev_tick_loop, hge, heq], h1, h2, h3, Or.inr heq⟩
      · rcases hwf prev with h | ⟨hf, ha, hlt⟩
        · exact absurd h heq
        · obtain ⟨q, hq, hrest⟩ :=
            ih (m.ticks_next prev) (by omega) hf ha (by omega)
          exact ⟨q, by simp [prev_tick_loop, hge, heq, hq], hrest⟩

/-- C3 (amended): for a valid max_price p and a well-formed model of the
tick reads — every non-terminator next pointer is at least the floor,
tick-aligned and strictly increasing, and floor_price and
nextActiveTickPrice are tick-aligned — compute_prev_tick_price with fuel
at least p terminates with q such that q < p, q is at least the floor, q
is on the tick lattice, and ticks(q).next is at least p or equals q. -/
theorem compute_prev_tick_price_spec (config : AuctionConfig) (m : TickModel)
    (p fuel : Nat) (hvalid : AuctionConfig.is_valid_price config p = true)
    (hwf : ∀ x, m.ticks_next x = x ∨
      (config.floor_price ≤ m.ticks_next x ∧
        Price.is_aligned (m.ticks_next x) config.tick_spacing = true ∧
        x < m.ticks_next x))
    (hfloor : Price.is_aligned config.floor_price config.tick_spacing = true)
    (hna : Price.is_aligned m.nextActiveTickPrice config.tick_spacing = true)
    (hfuel : p ≤ fuel) :
    ∃ q, compute_prev_tick_price config m fuel p = .ok (some q) ∧
      q < p ∧ config.floor_price ≤ q ∧
      Price.is_aligned q config.tick_spacing = true ∧
      (p ≤ m.ticks_next q ∨ m.ticks_next q = q) := by
  have hfp : config.floor_price < p := by
    have hv := hvalid
    simp only [AuctionConfig.is_valid_price, Bool.and_eq_true, decide_eq_true_eq] at hv
    exact hv.1.1
  by_cases hact : m.nextActiveTickPrice < p ∧ config.floor_price ≤ m.nextActiveTickPrice
  · obtain ⟨q, hq, hrest⟩ := prev_tick_loop_spec m p config.floor_price
      config.tick_spacing hwf fuel m.nextActiveTickPrice hact.1 hact.2 hna (by omega)
    refine ⟨q, ?_, hrest⟩
    simp only [compute_prev_tick_price, hvalid]
    rw [if_neg (by simp), if_pos hact, hq]
  · obtain ⟨q, hq, hrest⟩ := prev_tick_loop_spec m p config.floor_price
      config.tick_spacing hwf fuel config.floor_price hfp (Nat.le_refl _) hfloor (by omega)
    refine ⟨q, ?_, hrest⟩
    simp only [compute_prev_tick_price, hvalid]
    rw [if_neg (by simp), if_neg hact, hq]

/-- The configuration used by the C3 counterexample and witness: floor 10,
tick spacing 2, max bid price 20. -/
def tickCfg : AuctionConfig :=
  { address := 0, start_block := 0, end_block := 100, claim_block := 200
    total_supply := 1000, tick_spacing := 2, floor_price := 10
    max_bid_price := 20, currency := 0, token := 1, validation_hook := 0 }

/-- A tick model whose stored next pointers point below the floor and off
the lattice: every read of ticks(x).next yields 3. -/
def tickBad : TickModel :=
  { nextActiveTickPrice := 0, ticks_next := fun _ => 3 }

/-- C3 counterexample: for the valid max_price 12 over tickBad, the walk
returns 3, which is below floor_price 10 and not tick-aligned, so the
claim's guarantee does not hold for every model of the tick reads. -/
theorem compute_prev_tick_price_violation :
    AuctionConfig.is_valid_price tickCfg 12 = true ∧
    compute_prev_tick_price tickCfg tickBad 5 12 = .ok (some 3) ∧
    ¬tickCfg.floor_price ≤ 3 ∧
    Price.is_aligned 3 tickCfg.tick_spacing = false := by
  refine ⟨by decide, ?_, by decide, by decide⟩
  rfl

/-- A well-formed tick model for the C3 witness: every tick is a
terminator. -/
def tickIdle : TickModel :=
  { nextActiveTickPrice := 0, ticks_next := fun x => x }

/-- C3 witness: over tickIdle with max_price 12 and fuel 12, the walk
returns a price with all the amended guarantees. -/
theorem compute_prev_tick_price_spec_witness :
    ∃ q, compute_prev_tick_price tickCfg tickIdle 12 12 = .ok (some q) ∧
      q < 12 ∧ tickCfg.floor_price ≤ q ∧
      Price.is_aligned q tickCfg.tick_spacing = true ∧
      (12 ≤ tickIdle.ticks_next q ∨ tickIdle.ticks_next q = q) :=
  compute_prev_tick_price_spec tickCfg tickIdle 12 12 (by decide)
    (fun x => Or.inl rfl) (by decide) (by decide) (by decide)

/-- C7: when submit_bid returns Ok, the returned bid_id paired with the
confirming transaction hash has been appended as the last element of
tracked_bids; on every error path tracked_bids is unchanged; and the
other write paths, exit_bid and exit_partially_filled, never change
tracked_bids. -/
theorem submit_bid_tracked_bids (chain : SendResult) (tracked : List TrackedBid) :
    (∀ res tracked2, submit_bid chain tracked = (.ok res, tracked2) →
      tracked2 = tracked ++ [{ id := res.bid_id, tx_hash := res.tx_hash }]) ∧
    (∀ e tracked2, submit_bid chain tracked = (.error e, tracked2) →
      tracked2 = tracked) ∧
    (∀ bid_id, (exit_bid chain bid_id tracked).2 = tracked) ∧
    (∀ bid_id, (exit_partially_filled chain bid_id tracked).2 = tracked) := by
  refine ⟨?_, ?_, ?_, ?_⟩
  · intro res tracked2 h
    unfold submit_bid at h
    rcases chain with e | e | ⟨txh, _ | ⟨st, logs⟩⟩ <;> simp_all
    rcases st <;> simp_all
    rcases hf : find_bid_submitted logs with _ | id <;> rw [hf] at h <;> simp_all
    obtain ⟨h1, h2⟩ := h
    subst h1
    subst h2
    rfl
  · intro e tracked2 h
    unfold submit_bid at h
    rcases chain with e1 | e1 | ⟨txh, _ | ⟨st, logs⟩⟩ <;> simp_all
    rcases st <;> simp_all
    rcases hf : find_bid_submitted logs with _ | id <;> rw [hf] at h <;> simp_all
  · intro bid_id
    unfold exit_bid
    rcases chain with e1 | e1 | ⟨txh, _ | ⟨st, logs⟩⟩ <;> simp_all
    rcases st <;> simp_all
    rcases hf : find_bid_exited logs with _ | data <;> simp [hf]
  · intro bid_id
    unfold exit_partially_filled
    rcases chain with e1 | e1 | ⟨txh, _ | ⟨st, logs⟩⟩ <;> simp_all
    rcases st <;> simp_all
    rcases hf : find_bid_exited logs with _ | data <;> simp [hf]

/-- The configuration used by the C4 counterexample: the auction starts
at block 100. -/
def prepCfg : AuctionConfig :=
  { address := 0, start_block := 100, end_block := 200, claim_block := 300
    total_supply := 1000, tick_spacing := 2, floor_price := 10
    max_bid_price := 50, currency := 0, token := 1, validation_hook := 0 }

/-- The empty checkpoint of the C4 counterexample state. -/
def prepCp : Checkpoint :=
  { block := 0, clearing_price := 0, cumulative_mps := 0, prev_block := 0, next_block := 0 }

/-- A pre-start state handed to prepare_bid by the C4 counterexample. -/
def prepState : AuctionState :=
  { current_block := 50
    phase := .PreStart 50
    checkpoint := prepCp
    graduation := .NotGraduated
    tokens_received := .Received
    currency_raised := 0 }

/-- C4 counterexample: prepare_bid does validate — with the auction not
yet started it returns Validation AuctionNotStarted from its own
validate_bid_params call even though the tick computation and both hook
operations would succeed. -/
theorem prepare_bid_validation_counterexample :
    prepare_bid (.ok prepState) (fun _ => .ok 12) (fun _ _ => .ok [])
      (fun _ _ => .ok ()) prepCfg { max_price := 12, amount := 5, owner := 3 } =
      .error (.Validation .AuctionNotStarted) := by
  rfl

/-- C4 (amended): prepare_bid computes the tick hint, sets value = amount
exactly when the currency is native, obtains hook_data from
prepare_hook_data and assigns it — but it is not validation-free: it
first fetches state and runs validate_bid_params (the same checks as the
pure validator the executor runs beforehand) and finally the hook's
validate, and any validation rejection is returned as its error. -/
theorem prepare_bid_spec (fs : Except Error AuctionState)
    (tick_hint : Nat → Except Error Nat)
    (hp : SubmitBidParams → AuctionState → Except Error (List Nat))
    (hv : SubmitBidParams → AuctionState → Except Error Unit)
    (config : AuctionConfig) (input : SubmitBidInput) :
    (∀ params, prepare_bid fs tick_hint hp hv config input = .ok params →
      ∃ state, fs = .ok state ∧
        validate_bid_params input state config = .ok () ∧
        tick_hint input.max_price = .ok params.prev_tick_price ∧
        params.max_price = input.max_price ∧
        params.amount = input.amount ∧
        params.owner = input.owner ∧
        params.value =
          (if AuctionConfig.is_native_currency config then input.amount else 0) ∧
        hp (SubmitBidParams.mk input.max_price input.amount input.owner
          params.prev_tick_price [] params.value) state = .ok params.hook_data ∧
        hv params state = .ok ()) ∧
    (∀ state e, fs = .ok state →
      validate_bid_params input state config = .error e →
      prepare_bid fs tick_hint hp hv config input = .error e) := by
  constructor
  · intro params h
    rcases fs with e | state
    · simp [prepare_bid, Bind.bind, Except.bind] at h
    · refine ⟨state, rfl, ?_⟩
      rcases hval : validate_bid_params input state config with e | u
      · simp [prepare_bid, Bind.bind, Except.bind, hval] at h
      · rcases ht : tick_hint input.max_price with e | t
        · simp [prepare_bid, Bind.bind, Except.bind, hval, ht] at h
        · by_cases hnat : AuctionConfig.is_native_currency config = true
          · rcases hhp : hp (SubmitBidParams.mk input.max_price input.amount
                input.owner t [] input.amount) state with e | hd
            · simp [prepare_bid, Bind.bind, Except.bind, hval, ht, hnat, hhp] at h
            · rcases hhv : hv (SubmitBidParams.mk input.max_price input.amount
                  input.owner t hd input.amount) state with e | u2
              · simp [prepare_bid, Bind.bind, Except.bind, hval, ht, hnat, hhp, hhv] at h
              · simp [prepare_bid, Bind.bind, Except.bind, hval, ht, hnat, hhp, hhv] at h
                subst h
                simp_all
          · rcases hhp : hp (SubmitBidParams.mk input.max_price input.amount
                input.owner t [] 0) state with e | hd
            · simp [prepare_bid, Bind.bind, Except.bind, hval, ht, hnat, hhp] at h
            · rcases hhv : hv (SubmitBidParams.mk input.max_price input.amount
                  input.owner t hd 0) state with e | u2
              · simp [prepare_bid, Bind.bind, Except.bind, hval, ht, hnat, hhp, hhv] at h
              · simp [prepare_bid, Bind.bind, Except.bind, hval, ht, hnat, hhp, hhv] at h
                subst h
                simp_all
  · intro state e hfs hval
    subst hfs
    simp [prepare_bid, Bind.bind, Except.bind, hval]

/-- With an empty or all-Skip strategy answer and the completion predicate
false at this block, handle_block continues with the orchestrator
untouched. -/
theorem handle_block_skip (exec : ExecOracle)
    (strategy : EvaluationContext → List Intent) (config : AuctionConfig)
    (o : Orchestrator) (block : Nat)
    (hnc : o.is_complete
      (AuctionState.compute_phase config block o.cache.tokens_received) = false)
    (hskip : ∀ ctx, strategy ctx = [] ∨ (strategy ctx).all Intent.is_skip = true) :
    Orchestrator.handle_block exec strategy config o block = .ok (.Continue, o) := by
  simp only [Orchestrator.handle_block, hnc, Bool.false_eq_true, if_false]
  rcases hskip (EvaluationContext.mk block
      (AuctionState.compute_phase config block o.cache.tokens_received) o.cache
      (o.tracked_bids.map TrackedBid.id) config) with he | ha
  · rw [he]
    simp
  · rw [ha]
    simp

/-- Over a stream of Ok blocks on which the completion predicate never
fires, a strategy that always answers empty or all-Skip leaves the
orchestrator state unchanged and run ends with BlockStreamEnded. -/
theorem run_skip_general (exec : ExecOracle)
    (strategy : EvaluationContext → List Intent) (config : AuctionConfig)
    (o : Orchestrator) :
    ∀ blocks : List (Except BlockStreamError Nat),
      (∀ item ∈ blocks, ∃ n, item = Except.ok n) →
      (∀ ctx, strategy ctx = [] ∨ (strategy ctx).all Intent.is_skip = true) →
      (∀ n, Except.ok n ∈ blocks → o.is_complete
        (AuctionState.compute_phase config n o.cache.tokens_received) = false) →
      Orchestrator.run exec strategy config o blocks =
        .ok (o.finalize .BlockStreamEnded) := by
  intro blocks
  induction blocks with
  | nil => intro _ _ _; rfl
  | cons item rest ih =>
    intro hok hskip hnc
    obtain ⟨n, rfl⟩ := hok item (List.mem_cons_self _ _)
    have h1 := handle_block_skip exec strategy config o n
      (hnc n (List.mem_cons_self _ _)) hskip
    simp only [Orchestrator.run, h1]
    exact ih (fun i hm => hok i (List.mem_cons_of_mem _ hm)) hskip
      (fun m hm => hnc m (List.mem_cons_of_mem _ hm))

/-- C8: starting from Orchestrator::new, if the strategy answers an empty
vector or all-Skip on every block and the completion predicate never
holds at the streamed blocks, no intent is executed, no counter changes,
and a naturally ending stream makes run return BlockStreamEnded with
bids_submitted = 0, bids_exited = 0 and tokens_claimed = 0. -/
theorem run_skip_forever (exec : ExecOracle)
    (strategy : EvaluationContext → List Intent) (config : AuctionConfig)
    (tracked : List TrackedBid) (blocks : List (Except BlockStreamError Nat))
    (hok : ∀ item ∈ blocks, ∃ n, item = Except.ok n)
    (hskip : ∀ ctx, strategy ctx = [] ∨ (strategy ctx).all Intent.is_skip = true)
    (hnc : ∀ n, Except.ok n ∈ blocks → (Orchestrator.new tracked).is_complete
      (AuctionState.compute_phase config n
        (Orchestrator.new tracked).cache.tokens_received) = false) :
    Orchestrator.run exec strategy config (Orchestrator.new tracked) blocks =
      .ok { bids_submitted := 0, bids_exited := 0, tokens_claimed := 0
            reason := .BlockStreamEnded } :=
  run_skip_general exec strategy config (Orchestrator.new tracked) blocks hok hskip hnc

/-- An oracle whose every intent execution fails with a reverted
transaction. -/
def failExec : ExecOracle := fun _ _ _ => .error (.Transaction (.Reverted 99))

/-- A strategy that always proposes one bid. -/
def bidStrategy : EvaluationContext → List Intent := fun _ => [Intent.SubmitBid 50 7]

/-- A strategy that never proposes anything. -/
def skipStrategy : EvaluationContext → List Intent := fun _ => []

/-- A config whose auction is running from block 0. -/
def liveCfg : AuctionConfig :=
  { address := 0, start_block := 0, end_block := 100, claim_block := 200
    total_supply := 1000, tick_spacing := 2, floor_price := 10
    max_bid_price := 50, currency := 0, token := 1, validation_hook := 0 }

/-- C8 witness: two skipped blocks end with BlockStreamEnded and zero
counters. -/
theorem run_skip_forever_witness :
    Orchestrator.run failExec skipStrategy liveCfg (Orchestrator.new [])
      [Except.ok 10, Except.ok 11] =
      .ok { bids_submitted := 0, bids_exited := 0, tokens_claimed := 0
            reason := .BlockStreamEnded } :=
  run_skip_forever failExec skipStrategy liveCfg [] [Except.ok 10, Except.ok 11]
    (by
      intro item hm
      simp only [List.mem_cons, List.not_mem_nil, or_false] at hm
      rcases hm with h | h
      · exact ⟨10, h⟩
      · exact ⟨11, h⟩)
    (fun _ => Or.inl rfl)
    (by
      intro n hm
      simp only [List.mem_cons, List.not_mem_nil, or_false] at hm
      rcases hm with h | h <;> (injection h with h; subst h; rfl))

/-- C2 counterexample: a reverted transaction inside the single intent of
the only streamed block is not wrapped into a recorded failure — it
aborts the whole run, which returns that transaction error although no
block-stream error occurred. -/
theorem orchestrator_intent_error_aborts :
    Orchestrator.run failExec bidStrategy liveCfg (Orchestrator.new [])
      [Except.ok 10] = .error (.Transaction (.Reverted 99)) := by
  rfl

/-- C2 (amended): only IntentExecutor::execute wraps an intent execution
outcome, Ok into Success and Err into Failed with the intent; the
orchestrator does not use it — in its per-block loop an error from one
intent's execution propagates out of handle_block and aborts run with
that error, so run returns errors for failed intents as well as for
block-stream errors. -/
theorem intent_error_propagation (exec : ExecOracle)
    (strategy : EvaluationContext → List Intent) (config : AuctionConfig)
    (o : Orchestrator) (block : Nat) (rest : List (Except BlockStreamError Nat))
    (intent : Intent) (e : Error)
    (hnc : o.is_complete
      (AuctionState.compute_phase config block o.cache.tokens_received) = false)
    (hstrat : strategy (EvaluationContext.mk block
      (AuctionState.compute_phase config block o.cache.tokens_received) o.cache
      (o.tracked_bids.map TrackedBid.id) config) = [intent])
    (hintent : intent.is_skip = false)
    (hexec : exec intent block o = .error e) :
    Orchestrator.handle_block exec strategy config o block = .error e ∧
    Orchestrator.run exec strategy config o (Except.ok block :: rest) = .error e ∧
    (∀ (i : Executor.Intent) (err : Error),
      Executor.execute i (.error err) = .Failed i err) ∧
    (∀ (i : Executor.Intent) (r : Executor.IntentResult),
      Executor.execute i (.ok r) = .Success r) := by
  have hhb : Orchestrator.handle_block exec strategy config o block = .error e := by
    cases intent with
    | Skip => simp [Intent.is_skip] at hintent
    | SubmitBid mp a =>
      simp only [Orchestrator.handle_block, hnc, Bool.false_eq_true, if_false, hstrat]
      simp [Orchestrator.exec_intents, Orchestrator.resolve_and_execute,
        Intent.is_skip, hexec]
    | Exit b =>
      simp only [Orchestrator.handle_block, hnc, Bool.false_eq_true, if_false, hstrat]
      simp [Orchestrator.exec_intents, Orchestrator.resolve_and_execute,
        Intent.is_skip, hexec]
    | Claim ids =>
      simp only [Orchestrator.handle_block, hnc, Bool.false_eq_true, if_false, hstrat]
      simp [Orchestrator.exec_intents, Orchestrator.resolve_and_execute,
        Intent.is_skip, hexec]
  refine ⟨hhb, ?_, fun i err => rfl, fun i r => rfl⟩
  simp only [Orchestrator.run, hhb]

/-- C2 witness: the propagation theorem applied to the concrete reverting
scenario. -/
theorem intent_error_propagation_witness :
    Orchestrator.handle_block failExec bidStrategy liveCfg (Orchestrator.new []) 10 =
      .error (.Transaction (.Reverted 99)) ∧
    Orchestrator.run failExec bidStrategy liveCfg (Orchestrator.new [])
      (Except.ok 10 :: []) = .error (.Transaction (.Reverted 99)) ∧
    (∀ (i : Executor.Intent) (err : Error),
      Executor.execute i (.error err) = .Failed i err) ∧
    (∀ (i : Executor.Intent) (r : Executor.IntentResult),
      Executor.execute i (.ok r) = .Success r) :=
  intent_error_propagation failExec bidStrategy liveCfg (Orchestrator.new []) 10 []
    (Intent.SubmitBid 50 7) (.Transaction (.Reverted 99)) rfl rfl rfl rfl

end Flux
